import Mathlib

/-!
Verification of the RefChecker reference-verification engine.

This file gives a shallow embedding of the core of the repository:

* `src/checkers/semantic_scholar.py` — the resolution pipeline
  (`NonArxivReferenceChecker.verify_reference` and its helpers);
* `src/checkers/local_semantic_scholar.py` — the local-database scoring
  (`LocalNonArxivReferenceChecker.find_best_match`);
* `src/utils/url_utils.py` — URL construction utilities;
* `src/core/parallel_processor.py` — the worker pool, the ordering buffer
  (`_ordered_result_printer`) and the statistics aggregator.

External collaborators that are not under `src/` (the field normalizer in
`utils/text_utils.py`, `utils/doi_utils.py`, and the configuration) are
abstracted as explicit parameters collected in the `Env` structure, and the
network is abstracted as a `Client` oracle; the control flow around them is
translated from the source line by line.  Python truthiness of strings,
lists and integers is modelled by emptiness / zero tests; optional dict
entries whose every use in the source is guarded by truthiness are modelled
as plain values with the empty value meaning absence.
-/

/-! ## Data model -/

/-- An author record from a metadata source (dict with a `name` entry). -/
structure Author where
  name : String
deriving DecidableEq, Repr

/-- The `externalIds` mapping of a paper.  The source only ever reads the
`DOI` and `ArXiv` keys through truthiness-guarded accesses, so an empty
string stands for an absent key. -/
structure ExternalIds where
  doi : String := ""
  arxiv : String := ""
deriving DecidableEq, Repr

/-- A paper record returned by a metadata source (Semantic Scholar JSON or
a synthesized arXiv record).  `year = none` models an absent or null year;
`openAccessPdf` is the `url` entry of the `openAccessPdf` dict, with `""`
standing for an absent dict or url; venue/journal are modelled as strings
(the source normalizes a dict-valued venue to its `name` entry). -/
structure Paper where
  title : String := ""
  authors : List Author := []
  year : Option Int := none
  externalIds : ExternalIds := {}
  url : String := ""
  openAccessPdf : String := ""
  venue : String := ""
  journal : String := ""
deriving DecidableEq, Repr

/-- A citation as extracted from the document (`reference` dict).  The
defaults are the ones `reference.get` supplies in the source; a missing
`doi` key and an empty `doi` value are indistinguishable there (every use
is truthiness-guarded), so both are `""`. -/
structure Reference where
  title : String := ""
  authors : List String := []
  year : Int := 0
  url : String := ""
  rawText : String := ""
  doi : String := ""
  journal : String := ""
  venue : String := ""
deriving DecidableEq, Repr

/-- Kind of a finding: the source emits dicts keyed `error_type`/...
or `warning_type`/... -/
inductive FKind where
  | error
  | warning
deriving DecidableEq, Repr

/-- The payload of a finding's details message, structured instead of the
formatted Python string but carrying the same information.  The `Bool` on
`authorMismatch`/`yearMismatch` records whether the parenthesised ArXiv-ID
context note is appended to the message. -/
inductive Detail where
  | apiFailureMsg (reason : String)
  | titleMismatch (cited found : String)
  | authorMismatch (msg : String) (arxivNote : Bool)
  | yearMismatch (cited actual : Int) (arxivNote : Bool)
  | venueMismatch (cited actual : String)
  | arxivUrlSuggestion (url : String)
  | venueMissing (venue : String)
  | doiMismatch (cited actual : String)
  | processingFailed (msg : String)
deriving DecidableEq, Repr

/-- One reported discrepancy or status note.  `field` is the
`error_type`/`warning_type` value; `correction` is the `ref_*_correct`
entry when the source supplies one (integers are rendered with
`toString`). -/
structure Finding where
  kind : FKind
  field : String
  detail : Detail
  correction : Option String
deriving DecidableEq, Repr

/-! ## String helpers

Python `in`, `str.startswith`-style tests and the two regular expressions
of `semantic_scholar.py` operate on character sequences; we model them on
`List Char`. -/

/-- Does the pattern occur at the start of the list? -/
def startsWithL : List Char → List Char → Bool
  | [], _ => true
  | _ :: _, [] => false
  | a :: as, b :: bs => a = b && startsWithL as bs

/-- Python `needle in hay` on strings: substring containment. -/
def containsSubL (needle : List Char) : List Char → Bool
  | [] => startsWithL needle []
  | c :: cs => startsWithL needle (c :: cs) || containsSubL needle cs

/-- Python `needle in hay` on strings. -/
def containsSub (needle hay : String) : Bool :=
  containsSubL needle.data hay.data

/-- Python `str.lower()`: case-fold every character.  (Defined on the
character list so that concrete instances reduce in the kernel.) -/
def pyLower (s : String) : String :=
  ⟨s.data.map Char.toLower⟩

/-- Python `str.strip()`: drop leading and trailing whitespace. -/
def pyStrip (s : String) : String :=
  ⟨((s.data.dropWhile Char.isWhitespace).reverse.dropWhile Char.isWhitespace).reverse⟩

/-- Python `str.replace(a, b)` for single characters (the source only
replaces the newline character by a space). -/
def pyReplaceChar (a b : Char) (s : String) : String :=
  ⟨s.data.map (fun c => if c = a then b else c)⟩

/-- Python `str.split(sep)` for a single-character separator. -/
def splitCharGo (sep : Char) : List Char → List Char → List String
  | [], acc => [⟨acc.reverse⟩]
  | c :: cs, acc =>
    if c = sep then ⟨acc.reverse⟩ :: splitCharGo sep cs []
    else splitCharGo sep cs (c :: acc)

/-- Python `str.split(sep)` for a single-character separator. -/
def splitChar (sep : Char) (s : String) : List String :=
  splitCharGo sep s.data []

/-- Python `str.split()`: split on whitespace runs, dropping empty
pieces. -/
def pyWordsGo : List Char → List Char → List String
  | [], acc => if acc.isEmpty then [] else [⟨acc.reverse⟩]
  | c :: cs, acc =>
    if c.isWhitespace then
      if acc.isEmpty then pyWordsGo cs [] else ⟨acc.reverse⟩ :: pyWordsGo cs []
    else pyWordsGo cs (c :: acc)

/-- Python `str.split()`: the whitespace-separated words of a string. -/
def pyWords (s : String) : List String :=
  pyWordsGo s.data []

/-- Python `sep.join(parts)`. -/
def joinSep (sep : String) : List String → String
  | [] => ""
  | [x] => x
  | x :: y :: xs => x ++ sep ++ joinSep sep (y :: xs)

/-- The newline character. -/
def nlChar : Char := Char.ofNat 10

/-- The space character. -/
def spChar : Char := Char.ofNat 32

/-- The hash character that separates the `author#title#venue#year#url`
raw-text format and DOI fragments. -/
def hashChar : Char := Char.ofNat 35

/-- Leftmost match of a regex of the form `pat([^stop]+)`: scan for the
first position where `pat` occurs followed by at least one character not
in the stop set, and return that maximal group. -/
def scanToken (pat : List Char) (stop : Char → Bool) : List Char → Option String
  | [] => none
  | c :: cs =>
    if startsWithL pat (c :: cs) then
      let tok := ((c :: cs).drop pat.length).takeWhile (fun ch => !stop ch)
      if tok.isEmpty then scanToken pat stop cs else some ⟨tok⟩
    else scanToken pat stop cs

/-- `NonArxivReferenceChecker.extract_doi_from_url`
(`semantic_scholar.py:171-191`): if the url contains `doi.org`, search for
the regex `doi.org/([^/\s]+)` and return the group. -/
def extract_doi_from_url (url : String) : Option String :=
  if url = "" then none
  else if containsSub "doi.org" url then
    scanToken "doi.org/".data (fun c => c = '/' || c.isWhitespace) url.data
  else none

/-- The regex `arxiv.org/abs/([^\s/?#]+)` used at
`semantic_scholar.py:293`, `:373` and `:401`. -/
def extractArxivId (url : String) : Option String :=
  scanToken "arxiv.org/abs/".data
    (fun c => c.isWhitespace || c = '/' || c = '?' || c = '#') url.data

/-! ## URL utilities (`src/utils/url_utils.py`) -/

/-- `construct_doi_url` (`url_utils.py:13-30`); `normalize_doi` lives in
the absent `utils/doi_utils.py` and is passed in as a parameter. -/
def construct_doi_url (normalizeDoi : String → String) (doi : String) : String :=
  if doi = "" then "" else "https://doi.org/" ++ normalizeDoi doi

/-- `construct_arxiv_url` (`url_utils.py:33-53`) with the default
`url_type="abs"` branch; the source strips a literal version suffix. -/
def construct_arxiv_url (arxivId : String) : String :=
  if arxivId = "" then ""
  else "https://arxiv.org/abs/" ++
    (((arxivId.replace "v1" "").replace "v2" "").replace "v3" "")

/-- `get_best_available_url` (`url_utils.py:110-146`), used by the local
database checker: priority PDF > DOI > ArXiv (further identifier kinds are
not modelled because no paper record in scope carries them). -/
def get_best_available_url (normalizeDoi : String → String)
    (externalIds : ExternalIds) (openAccessPdf : String) : Option String :=
  if openAccessPdf ≠ "" then some openAccessPdf
  else if externalIds.doi ≠ "" then some (construct_doi_url normalizeDoi externalIds.doi)
  else if externalIds.arxiv ≠ "" then some (construct_arxiv_url externalIds.arxiv)
  else none

/-! ## Metadata source client

Network calls are abstracted as an oracle.  The retry loops of
`search_paper` (`semantic_scholar.py:92-119`) and `get_paper_by_doi`
(`:138-169`) are modelled separately below; their observable outcome — the
interface `verify_reference` sees — is captured by these outcome types.
A transient outcome is what the source produces after exhausting retries:
it returns the empty/none value and sets `self._api_failed`. -/

/-- Outcome of `get_paper_by_doi`: a paper, a definite 404 (returns `None`
without touching the failure flag), or retry exhaustion (returns `None`
and sets `_api_failed`). -/
inductive DoiOutcome where
  | found (p : Paper)
  | notFound
  | transient
deriving DecidableEq, Repr

/-- Outcome of `search_paper`: a result list (possibly empty) on HTTP
success, or retry exhaustion (returns `[]` and sets `_api_failed`). -/
inductive SearchOutcome where
  | results (ps : List Paper)
  | transient
deriving DecidableEq, Repr

/-- What each HTTP attempt inside the `search_paper` retry loop does:
a 200 response with a (possibly empty) data list, or a transient condition
(a 429 status or a raised `RequestException`, which the loop treats
identically: sleep with exponential backoff, then try again). -/
inductive SearchAttempt where
  | ok (ps : List Paper)
  | transientErr
deriving DecidableEq, Repr

/-- `self.max_retries = 5` (`semantic_scholar.py:63`). -/
def max_retries : Nat := 5

/-- The retry loop of `search_paper` (`semantic_scholar.py:92-119`),
indexed from attempt `i`: each attempt either returns the parsed data or
is transient and the loop continues; falling off the end of
`range(self.max_retries)` sets `_api_failed` and returns `[]`, i.e. the
`transient` outcome. -/
def search_paper_go (attempts : Nat → SearchAttempt) : Nat → Nat → SearchOutcome
  | _, 0 => .transient
  | i, n + 1 =>
    match attempts i with
    | .ok ps => .results ps
    | .transientErr => search_paper_go attempts (i + 1) n

/-- `search_paper` as a function of its per-attempt behaviour: run the
loop body for `max_retries` attempts starting at attempt 0. -/
def search_paper_run (attempts : Nat → SearchAttempt) : SearchOutcome :=
  search_paper_go attempts 0 max_retries

/-- The network oracle for one `verify_reference` call.  The query string
and year filter are passed through so that a trace of the calls made can
be recorded. -/
structure Client where
  getPaperByDoi : String → DoiOutcome
  searchPaper : String → Option Int → SearchOutcome
  arxivApi : String → Option Paper

/-- A record of one outward call made during `verify_reference`:
`get_paper_by_doi`, `search_paper` (with its query and year arguments) or
the direct arXiv API fallback `_get_paper_from_arxiv_api`. -/
inductive CallTag where
  | doiCall (d : String)
  | searchCall (q : String) (y : Option Int)
  | arxivApiCall (id : String)
deriving DecidableEq, Repr

/-! ## Environment of external collaborators

`utils/text_utils.py`, `utils/doi_utils.py` and `config/settings.py` are
not part of the five source files; `verify_reference` only composes their
results, so they enter the embedding as opaque function parameters. -/

/-- The externally supplied utilities and configuration consumed by
`semantic_scholar.verify_reference`. -/
structure Env where
  /-- `config["text_processing"]["similarity_threshold"]`. -/
  threshold : ℚ
  /-- `clean_title_for_search` from `utils.text_utils`. -/
  cleanTitleForSearch : String → String
  /-- `normalize_text` from `utils.text_utils`. -/
  normalizeText : String → String
  /-- `calculate_title_similarity` from `utils.text_utils`. -/
  calcTitleSimilarity : String → String → ℚ
  /-- `compare_authors` from `utils.text_utils`: (match?, message). -/
  compareAuthors : List String → List Author → Bool × String
  /-- `are_venues_substantially_different` from `utils.text_utils`. -/
  venuesDiff : String → String → Bool
  /-- `find_best_match` from `utils.text_utils` (the API-side scorer, a
  distinct function from the local checker's method embedded below):
  given search results, the cleaned title, the cited year and authors, it
  returns the best candidate and its score. -/
  findBestMatch : List Paper → String → Int → List String → Option Paper × ℚ
  /-- `normalize_doi` from `utils.doi_utils`. -/
  normalizeDoi : String → String

/-! ## The resolution pipeline (`semantic_scholar.verify_reference`) -/

/-- The running state of the fallback chain inside `verify_reference`:
the paper found so far, the `found_title` local (`""` until a search
strategy records one — the direct DOI strategy never does), the
`cleaned_title` local (`none` while unassigned: it is only bound inside
the title-search branch, which is what makes the raw-text branch able to
crash), the `_api_failed` flag, whether an uncaught exception has been
raised, and the trace of client calls. -/
structure Chain where
  paper : Option Paper := none
  foundTitle : String := ""
  cleanedTitle : Option String := none
  apiFailed : Bool := false
  crashed : Bool := false
  trace : List CallTag := []

/-- The DOI actually used: the `doi` field if truthy, else the one
extracted from the url (`semantic_scholar.py:251-255`). -/
def refDoi (ref : Reference) : Option String :=
  if ref.doi ≠ "" then some ref.doi
  else if ref.url ≠ "" then extract_doi_from_url ref.url
  else none

/-- Strategy 1, identifier lookup (`semantic_scholar.py:259-266`). -/
def step1 (cl : Client) (ref : Reference) : Chain :=
  match refDoi ref with
  | some d =>
    match cl.getPaperByDoi d with
    | .found p => { paper := some p, trace := [.doiCall d] }
    | .notFound => { trace := [.doiCall d] }
    | .transient => { apiFailed := true, trace := [.doiCall d] }
  | none => {}

/-- Strategy 2, title search (`semantic_scholar.py:269-288`): clean the
title, search, score the candidates with the shared `find_best_match`,
accept when the best score reaches the similarity threshold. -/
def step2 (env : Env) (cl : Client) (ref : Reference) (c : Chain) : Chain :=
  if c.paper = none ∧ ref.title ≠ "" then
    let ct := env.cleanTitleForSearch ref.title
    let c := { c with cleanedTitle := some ct,
                      trace := c.trace ++ [.searchCall ct (some ref.year)] }
    match cl.searchPaper ct (some ref.year) with
    | .transient => { c with apiFailed := true }
    | .results ps =>
      if ps ≠ [] then
        match env.findBestMatch ps ct ref.year ref.authors with
        | (some p, score) =>
          if env.threshold ≤ score then
            { c with paper := some p, foundTitle := p.title }
          else c
        | (none, _) => c
      else c
  else c

/-- Strategy 3, arXiv-ID search with direct arXiv API fallback
(`semantic_scholar.py:291-318`): extract the id from the url, search
`arXiv:<id>`, accept the first result whose `externalIds.ArXiv` equals the
id exactly; if still nothing, query the arXiv API itself. -/
def step3 (cl : Client) (ref : Reference) (c : Chain) : Chain :=
  if c.paper = none ∧ ref.url ≠ "" ∧ containsSub "arxiv.org/abs/" ref.url then
    match extractArxivId ref.url with
    | some aid =>
      let c :=
        match cl.searchPaper ("arXiv:" ++ aid) none with
        | .transient =>
          { c with apiFailed := true,
                   trace := c.trace ++ [.searchCall ("arXiv:" ++ aid) none] }
        | .results ps =>
          let c := { c with trace := c.trace ++ [.searchCall ("arXiv:" ++ aid) none] }
          match ps.find? (fun p => p.externalIds.arxiv = aid) with
          | some p => { c with paper := some p, foundTitle := p.title }
          | none => c
      if c.paper = none then
        match cl.arxivApi aid with
        | some p => { c with paper := some p, foundTitle := p.title,
                             trace := c.trace ++ [.arxivApiCall aid] }
        | none => { c with trace := c.trace ++ [.arxivApiCall aid] }
      else c
    | none => c
  else c

/-- Strategy 4, raw-text search (`semantic_scholar.py:321-341`).  The
scoring call reuses the `cleaned_title` local of strategy 2; when that
local was never assigned (empty cited title) and the search returned
candidates, the source raises `UnboundLocalError`, modelled by the
`crashed` flag. -/
def step4 (env : Env) (cl : Client) (ref : Reference) (c : Chain) : Chain :=
  if c.paper = none ∧ ref.rawText ≠ "" then
    let q := pyStrip (pyLower (env.normalizeText (pyStrip (pyReplaceChar nlChar spChar ref.rawText))))
    let c := { c with trace := c.trace ++ [.searchCall q none] }
    match cl.searchPaper q none with
    | .transient => { c with apiFailed := true }
    | .results ps =>
      if ps ≠ [] then
        match c.cleanedTitle with
        | none => { c with crashed := true }
        | some ct =>
          match env.findBestMatch ps ct ref.year ref.authors with
          | (some p, score) =>
            if env.threshold ≤ score then
              { c with paper := some p, foundTitle := p.title }
            else c
          | (none, _) => c
      else c
  else c

/-- The ordered fallback chain of `verify_reference`
(`semantic_scholar.py:250-341`). -/
def resolveChain (env : Env) (cl : Client) (ref : Reference) : Chain :=
  step4 env cl ref (step3 cl ref (step2 env cl ref (step1 cl ref)))

/-! ## Cross-validation and verdict assembly -/

/-- The exact-ArXiv-ID test recomputed at `semantic_scholar.py:371-378`
(author check) and `:399-406` (year check): the id extracted from the
citation's url equals the candidate's `externalIds.ArXiv`. -/
def arxivIdMatchOf (url : String) (p : Paper) : Bool :=
  if url ≠ "" ∧ containsSub "arxiv.org/abs/" url then
    match extractArxivId url with
    | some aid => p.externalIds.arxiv = aid
    | none => false
  else false

/-- `', '.join(author.get('name','') for author in paper['authors'])`. -/
def joinAuthorNames (authors : List Author) : String :=
  joinSep ", " (authors.map Author.name)

/-- The single `api_failure` finding returned at
`semantic_scholar.py:350`; both retry loops store the same
`_failure_reason`. -/
def apiFailureFinding : Finding :=
  ⟨.error, "api_failure", .apiFailureMsg "rate_limited_or_timeout", none⟩

/-- Title check (`semantic_scholar.py:355-362`): only performed when a
search strategy recorded a `found_title`; a similarity below the threshold
yields a `title` error carrying the candidate's title. -/
def titleFindings (env : Env) (ref : Reference) (c : Chain) (p : Paper) :
    List Finding :=
  if c.foundTitle ≠ "" ∧ env.calcTitleSimilarity ref.title c.foundTitle < env.threshold then
    [⟨.error, "title", .titleMismatch ref.title c.foundTitle, some p.title⟩]
  else []

/-- Author check (`semantic_scholar.py:364-393`): on a mismatch, an
`author` error, downgraded to a warning carrying the ArXiv context note
when the url's arXiv id equals the candidate's. -/
def authorFindings (env : Env) (ref : Reference) (p : Paper) : List Finding :=
  if ref.authors ≠ [] then
    match env.compareAuthors ref.authors p.authors with
    | (true, _) => []
    | (false, msg) =>
      if arxivIdMatchOf ref.url p then
        [⟨.warning, "author", .authorMismatch msg true, some (joinAuthorNames p.authors)⟩]
      else
        [⟨.error, "author", .authorMismatch msg false, some (joinAuthorNames p.authors)⟩]
  else []

/-- Year check (`semantic_scholar.py:395-416`): when both years are
truthy and differ, a `year` warning carrying the candidate's year, with
the ArXiv context note when the ids match exactly. -/
def yearFindings (ref : Reference) (p : Paper) : List Finding :=
  match p.year with
  | some py =>
    if ref.year ≠ 0 ∧ py ≠ 0 ∧ ref.year ≠ py then
      [⟨.warning, "year", .yearMismatch ref.year py (arxivIdMatchOf ref.url p),
        some (toString py)⟩]
    else []
  | none => []

/-- Venue check (`semantic_scholar.py:419-461`): `journal or venue` on the
citation side, `venue or journal` on the candidate side; a substantial
difference yields a `venue` warning; a venue absent from the citation but
present on an arXiv candidate yields the arXiv-URL suggestion, otherwise
the `author#title#venue#year#url` raw-text recovery. -/
def venueFindings (env : Env) (ref : Reference) (p : Paper) : List Finding :=
  let citedVenue := if ref.journal ≠ "" then ref.journal else ref.venue
  let paperVenue := if p.venue ≠ "" then p.venue else p.journal
  if citedVenue ≠ "" ∧ paperVenue ≠ "" then
    if env.venuesDiff citedVenue paperVenue then
      [⟨.warning, "venue", .venueMismatch citedVenue paperVenue, some paperVenue⟩]
    else []
  else if citedVenue = "" ∧ paperVenue ≠ "" then
    if p.externalIds.arxiv ≠ "" then
      [⟨.warning, "venue",
        .arxivUrlSuggestion ("https://arxiv.org/abs/" ++ p.externalIds.arxiv),
        some ("https://arxiv.org/abs/" ++ p.externalIds.arxiv)⟩]
    else if ref.rawText ≠ "" ∧ containsSub "#" ref.rawText then
      let parts := splitChar hashChar ref.rawText
      if 3 ≤ parts.length ∧ pyStrip (parts.getD 2 "") ≠ "" then
        [⟨.warning, "venue", .venueMissing paperVenue, some paperVenue⟩]
      else []
    else []
  else []

/-- DOI check (`semantic_scholar.py:463-478`): compare the cited DOI and
the candidate's DOI case-insensitively after stripping a `#` fragment. -/
def doiFindings (ref : Reference) (p : Paper) : List Finding :=
  if p.externalIds.doi ≠ "" then
    let citedClean := match refDoi ref with
      | some d => (splitChar hashChar d).getD 0 ""
      | none => ""
    let paperClean := (splitChar hashChar p.externalIds.doi).getD 0 ""
    if citedClean ≠ "" ∧ paperClean ≠ "" ∧ pyLower citedClean ≠ pyLower paperClean then
      [⟨.error, "doi",
        .doiMismatch ((refDoi ref).getD "") p.externalIds.doi,
        some p.externalIds.doi⟩]
    else []
  else []

/-- URL selection for the verdict (`semantic_scholar.py:480-514`):
arXiv abstract url from the candidate's arXiv id, else the open-access
PDF url, else the candidate's `url` field, else a DOI resolver url via
`construct_doi_url`, else nothing. -/
def verdictUrl (env : Env) (p : Paper) : Option String :=
  if p.externalIds.arxiv ≠ "" then
    some ("https://arxiv.org/abs/" ++ p.externalIds.arxiv)
  else if p.openAccessPdf ≠ "" then some p.openAccessPdf
  else if p.url ≠ "" then some p.url
  else if p.externalIds.doi ≠ "" then
    some (construct_doi_url env.normalizeDoi p.externalIds.doi)
  else none

/-- Cross-validation of an accepted candidate
(`semantic_scholar.py:355-516`): the findings accumulate in source order
(title, author, year, venue, doi), then the verdict url is selected. -/
def crossValidate (env : Env) (ref : Reference) (c : Chain) (p : Paper) :
    List Finding × Option String :=
  (titleFindings env ref c p ++ authorFindings env ref p ++ yearFindings ref p ++
     venueFindings env ref p ++ doiFindings ref p,
   verdictUrl env p)

/-- A verification verdict: resolved paper or absence, findings, url. -/
abbrev Verdict := Option Paper × List Finding × Option String

/-- `NonArxivReferenceChecker.verify_reference`
(`semantic_scholar.py:224-516`): run the fallback chain; on an uncaught
exception propagate it (`Except.error`); with no paper found return the
`api_failure` finding or the bare not-found verdict according to the
`_api_failed` flag; with a paper found cross-validate it. -/
def verify_reference (env : Env) (cl : Client) (ref : Reference) :
    Except Unit Verdict :=
  let c := resolveChain env cl ref
  if c.crashed then .error ()
  else
    match c.paper with
    | none => .ok (none, if c.apiFailed then [apiFailureFinding] else [], none)
    | some p => .ok (some p, crossValidate env ref c p)

/-! ## Local database checker scoring
(`local_semantic_scholar.find_best_match`, lines 247-317)

`is_name_match` and `normalize_author_name` live in the absent
`utils/text_utils.py` and are passed in as parameters.  The database
title search that produces the candidate list is likewise abstracted:
the scoring and selection below are applied to an explicit
`titleResults` list. -/

/-- Words of a string: Python `str.split()` (split on whitespace runs,
dropping empty pieces), collected as a finite set. -/
def wordSet (s : String) : Finset String :=
  (pyWords s).toFinset

/-- The author bonus condition (`local_semantic_scholar.py:291-297`):
both author lists nonempty and the normalized first authors match. -/
def author_bonus (inm : String → String → Bool) (nan : String → String)
    (authors : List String) (result : Paper) : Bool :=
  authors ≠ [] && result.authors ≠ [] &&
    inm (nan (authors.getD 0 "")) (nan ((result.authors.getD 0 ⟨""⟩).name))

/-- The year bonus condition (`local_semantic_scholar.py:300-301`):
the cited year is truthy and the candidate year equals it. -/
def year_bonus (year : Int) (result : Paper) : Bool :=
  year ≠ 0 && result.year = some year

/-- The per-candidate score of `find_best_match`
(`local_semantic_scholar.py:272-301`): 0.8 on substring containment of
either lowercased title in the other, else distinct-word overlap divided
by the larger word count (0 when a side has no words); plus 0.2 for a
first-author match and 0.1 for an exact year match. -/
def match_score (inm : String → String → Bool) (nan : String → String)
    (title : String) (authors : List String) (year : Int) (result : Paper) : ℚ :=
  let resultTitle := pyLower result.title
  let titleLower := pyLower title
  let base : ℚ :=
    if containsSub titleLower resultTitle || containsSub resultTitle titleLower then
      8 / 10
    else
      let tw := wordSet titleLower
      let rw := wordSet resultTitle
      if tw = ∅ ∨ rw = ∅ then 0
      else ((tw ∩ rw).card : ℚ) / (max tw.card rw.card : ℚ)
  let withAuthor := if author_bonus inm nan authors result then base + 2 / 10 else base
  if year_bonus year result then withAuthor + 1 / 10 else withAuthor

/-- One step of the best-candidate fold
(`local_semantic_scholar.py:305-307`): strictly greater scores replace
the incumbent, so the first of equal scores is kept. -/
def selStep (score : Paper → ℚ) (acc : Option Paper × ℚ) (p : Paper) :
    Option Paper × ℚ :=
  if acc.2 < score p then (some p, score p) else acc

/-- The selection loop of `find_best_match` starting from
`best_match = None`, `best_score = 0`. -/
def selectBest (score : Paper → ℚ) (l : List Paper) : Option Paper × ℚ :=
  l.foldl (selStep score) (none, 0)

/-- The hard-coded acceptance threshold of the local checker
(`local_semantic_scholar.py:310`). -/
def localThreshold : ℚ := 7 / 10

/-- `LocalNonArxivReferenceChecker.find_best_match`
(`local_semantic_scholar.py:247-317`) given the database title-search
results: score every candidate, keep the best, accept it when the best
score reaches 0.7. -/
def find_best_match (inm : String → String → Bool) (nan : String → String)
    (titleResults : List Paper) (title : String) (authors : List String)
    (year : Int) : Option Paper :=
  if titleResults ≠ [] then
    let (bm, bs) := selectBest (match_score inm nan title authors year) titleResults
    if localThreshold ≤ bs then bm else none
  else none

/-! ## Parallel processor (`src/core/parallel_processor.py`)

Wall-clock timestamps and thread identities are not modelled; the
reference checker invoked by a worker is abstracted as a per-item
outcome (a normal return or a raised exception). -/

/-- `ReferenceWorkItem` (`parallel_processor.py:21-27`) without the
wall-clock timestamp and the opaque source-paper handle. -/
structure WorkItem where
  index : Nat
  reference : Reference
deriving DecidableEq, Repr

/-- `ReferenceResult` (`parallel_processor.py:30-38`) without the
wall-clock processing time. -/
structure ReferenceResult where
  index : Nat
  errors : Option (List Finding)
  url : Option String
  verifiedData : Option Paper
deriving DecidableEq, Repr

/-- What `self.base_checker.verify_reference` does on one work item:
return an `(errors, url, verified_data)` triple, or raise. -/
inductive VerifyOutcome where
  | ok (errors : Option (List Finding)) (url : Option String) (vd : Option Paper)
  | exn (msg : String)
deriving DecidableEq, Repr

/-- The `processing_failed` finding a worker fabricates when verification
raises (`parallel_processor.py:200-206`). -/
def processingFailedFinding (msg : String) : Finding :=
  ⟨.error, "processing_failed", .processingFailed msg, none⟩

/-- The per-item body of `_worker_loop` (`parallel_processor.py:171-210`):
on a normal return, wrap the triple at the item's index; on an exception,
emit one result carrying a single `processing_failed` finding at the
item's index.  Exactly one result is emitted either way. -/
def processWorkItem (w : WorkItem) (o : VerifyOutcome) : ReferenceResult :=
  match o with
  | .ok errs url vd => ⟨w.index, errs, url, vd⟩
  | .exn msg => ⟨w.index, some [processingFailedFinding msg], none, none⟩

/-- `_worker_loop` over the sequence of work items one worker pulls from
the queue before its sentinel (`parallel_processor.py:161-214`). -/
def worker_loop (tasks : List (WorkItem × VerifyOutcome)) : List ReferenceResult :=
  tasks.map (fun t => processWorkItem t.1 t.2)

/-- The work items `verify_references_parallel` queues
(`parallel_processor.py:109-116`): one per bibliography entry, indexed by
`enumerate`. -/
def mkWorkItems (bibliography : List Reference) : List WorkItem :=
  bibliography.enum.map (fun pr => ⟨pr.1, pr.2⟩)

/-! ## Ordering buffer (`_ordered_result_printer`, lines 218-265)

The claims about the ordering buffer concern which sequence indices reach
the callback and in which order, so the buffer (`self.result_buffer`, a
dict keyed by index) is modelled by its key set and the emission stream
by the list of flushed indices. -/

/-- State of the printer thread: the buffered indices, the
`next_print_index` cursor, and the indices already handed to the
callback, in emission order. -/
structure PrinterState where
  buf : Finset Nat
  next : Nat
  emitted : List Nat
deriving DecidableEq

/-- The inner flush loop (`parallel_processor.py:238-255`): while the
next expected index is buffered, remove it, emit it and advance. -/
def flushLoop (buf : Finset Nat) (next : Nat) : Finset Nat × Nat × List Nat :=
  if h : next ∈ buf then
    let r := flushLoop (buf.erase next) (next + 1)
    (r.1, r.2.1, next :: r.2.2)
  else (buf, next, [])
termination_by buf.card
decreasing_by exact Finset.card_erase_lt_of_mem h

/-- One iteration of the printer loop (`parallel_processor.py:227-260`):
store the incoming result in the buffer, then flush. -/
def printerStep (st : PrinterState) (i : Nat) : PrinterState :=
  let r := flushLoop (insert i st.buf) st.next
  ⟨r.1, r.2.1, st.emitted ++ r.2.2⟩

/-- `_ordered_result_printer` run over a completion stream: results
arrive in an arbitrary order and are folded through the buffer, starting
from an empty buffer and `next_print_index = 0`. -/
def ordered_result_printer (arrivals : List Nat) : PrinterState :=
  arrivals.foldl printerStep ⟨∅, 0, []⟩

/-! ## Statistics aggregator (`_update_stats`, lines 323-338) -/

/-- `self.processing_stats` (`parallel_processor.py:75-81`).  The initial
`fastest_time = float('inf')` is modelled by `none`; times are rationals.
-/
structure ProcessingStats where
  totalProcessed : Nat := 0
  totalErrors : Nat := 0
  avgProcessingTime : ℚ := 0
  fastestTime : Option ℚ := none
  slowestTime : ℚ := 0
deriving DecidableEq

/-- `_update_stats` (`parallel_processor.py:323-338`): `total_errors` is
incremented by the full length of the result's finding list — findings of
every kind — and the incremental average and extremes are updated from
the processing time, passed here as an explicit argument. -/
def update_stats (s : ProcessingStats) (r : ReferenceResult) (procTime : ℚ) :
    ProcessingStats :=
  let total := s.totalProcessed + 1
  { totalProcessed := total
    totalErrors := s.totalErrors + (r.errors.getD []).length
    avgProcessingTime :=
      (s.avgProcessingTime * ((total : ℚ) - 1) + procTime) / (total : ℚ)
    fastestTime := some (match s.fastestTime with
      | some f => min f procTime
      | none => procTime)
    slowestTime := max s.slowestTime procTime }

/-! ## Lemmas about the local scoring and selection -/

/-- The base score as the claim words it: 0.8 when either case-folded
title is a substring of the other, else the number of common words over
the larger word count (a division by zero, possible only when both word
sets are empty, is 0 by the Lean convention, matching the source's
explicit guard). -/
def spec_base_score (cited candidate : String) : ℚ :=
  if containsSub (pyLower cited) (pyLower candidate) ||
      containsSub (pyLower candidate) (pyLower cited) then
    8 / 10
  else
    ((wordSet (pyLower cited) ∩ wordSet (pyLower candidate)).card : ℚ) /
      (max (wordSet (pyLower cited)).card (wordSet (pyLower candidate)).card : ℚ)

lemma match_score_eq (inm : String → String → Bool) (nan : String → String)
    (title : String) (authors : List String) (year : Int) (p : Paper) :
    match_score inm nan title authors year p =
      spec_base_score title p.title
        + (if author_bonus inm nan authors p then 2 / 10 else 0)
        + (if year_bonus year p then 1 / 10 else 0) := by
  have hbase :
      (if (containsSub (pyLower title) (pyLower p.title) ||
            containsSub (pyLower p.title) (pyLower title)) = true then (8 : ℚ) / 10
        else
          if wordSet (pyLower title) = ∅ ∨ wordSet (pyLower p.title) = ∅ then 0
          else ((wordSet (pyLower title) ∩ wordSet (pyLower p.title)).card : ℚ) /
            (max (wordSet (pyLower title)).card (wordSet (pyLower p.title)).card : ℚ)) =
        spec_base_score title p.title := by
    unfold spec_base_score
    split
    · rfl
    · split
      · rcases ‹wordSet (pyLower title) = ∅ ∨ wordSet (pyLower p.title) = ∅› with hz | hz <;>
          simp [hz]
      · rfl
  unfold match_score
  dsimp only
  rw [hbase]
  cases ha : author_bonus inm nan authors p <;>
    cases hy : year_bonus year p <;> simp [ha, hy]

lemma selStep_snd (score : Paper → ℚ) (acc : Option Paper × ℚ) (p : Paper) :
    (selStep score acc p).2 = max acc.2 (score p) := by
  unfold selStep
  split
  · exact (max_eq_right (le_of_lt (by assumption))).symm
  · exact (max_eq_left (le_of_not_lt (by assumption))).symm

/-- The running maximum computed by the selection fold. -/
def maxScore (score : Paper → ℚ) (l : List Paper) : ℚ :=
  l.foldl (fun m p => max m (score p)) 0

lemma foldl_selStep_snd (score : Paper → ℚ) (l : List Paper) :
    ∀ acc : Option Paper × ℚ,
      (l.foldl (selStep score) acc).2 = l.foldl (fun m p => max m (score p)) acc.2 := by
  induction l with
  | nil => intro acc; rfl
  | cons p l ih =>
    intro acc
    simpa [List.foldl_cons, selStep_snd] using ih (selStep score acc p)

lemma foldl_selStep_cases (score : Paper → ℚ) (l : List Paper) :
    ∀ acc : Option Paper × ℚ,
      l.foldl (selStep score) acc = acc ∨
        ∃ p ∈ l, l.foldl (selStep score) acc = (some p, score p) := by
  induction l with
  | nil => intro acc; exact Or.inl rfl
  | cons q l ih =>
    intro acc
    rcases ih (selStep score acc q) with h | ⟨p, hp, h⟩
    · rw [List.foldl_cons, h]
      unfold selStep
      split
      · exact Or.inr ⟨q, List.mem_cons_self q l, rfl⟩
      · exact Or.inl rfl
    · exact Or.inr ⟨p, List.mem_cons_of_mem q hp, by rw [List.foldl_cons, h]⟩

lemma selectBest_snd (score : Paper → ℚ) (l : List Paper) :
    (selectBest score l).2 = maxScore score l :=
  foldl_selStep_snd score l (none, 0)

lemma selectBest_some (score : Paper → ℚ) (l : List Paper) (p : Paper)
    (h : (selectBest score l).1 = some p) :
    p ∈ l ∧ score p = maxScore score l := by
  rcases foldl_selStep_cases score l (none, 0) with h0 | ⟨q, hq, heq⟩
  · rw [selectBest] at h
    rw [h0] at h
    exact absurd h (by simp)
  · have hpq : q = p := by
      have : (selectBest score l).1 = some q := by rw [selectBest, heq]
      rw [h] at this
      exact (Option.some_inj.mp this).symm
    subst hpq
    refine ⟨hq, ?_⟩
    have h2 : (selectBest score l).2 = score q := by rw [selectBest, heq]
    rw [← h2, selectBest_snd]

lemma maxScore_nonneg (score : Paper → ℚ) (l : List Paper) : 0 ≤ maxScore score l := by
  have : ∀ acc : ℚ, acc ≤ l.foldl (fun m p => max m (score p)) acc := by
    induction l with
    | nil => intro acc; exact le_refl acc
    | cons q l ih =>
      intro acc
      exact le_trans (le_max_left acc (score q)) (ih (max acc (score q)))
  exact this 0

lemma find_best_match_isSome (inm : String → String → Bool) (nan : String → String)
    (rs : List Paper) (title : String) (authors : List String) (year : Int) :
    (find_best_match inm nan rs title authors year).isSome = true ↔
      rs ≠ [] ∧ localThreshold ≤ maxScore (match_score inm nan title authors year) rs := by
  unfold find_best_match
  by_cases hr : rs = []
  · simp [hr]
  · rcases hsel : selectBest (match_score inm nan title authors year) rs with ⟨bm, bs⟩
    have hbs : bs = maxScore (match_score inm nan title authors year) rs := by
      have h2 := selectBest_snd (match_score inm nan title authors year) rs
      rw [hsel] at h2
      exact h2
    rw [if_pos hr]
    dsimp only
    by_cases hth : localThreshold ≤ bs
    · have hsome : bm.isSome = true := by
        rcases foldl_selStep_cases (match_score inm nan title authors year) rs (none, 0)
          with h0 | ⟨p, _, heq⟩
        · rw [selectBest] at hsel
          rw [h0] at hsel
          have hz : bs = (0 : ℚ) := by
            have h3 := congrArg Prod.snd hsel
            simpa using h3.symm
          rw [hz] at hth
          norm_num [localThreshold] at hth
        · rw [selectBest] at hsel
          rw [heq] at hsel
          have h4 : bm = some p := by
            have h5 := congrArg Prod.fst hsel
            simpa using h5.symm
          simp [h4]
      rw [if_pos hth]
      simp [hsome, hr, ← hbs, hth]
    · rw [if_neg hth]
      simp [hr, ← hbs, hth]

lemma find_best_match_eq_some (inm : String → String → Bool) (nan : String → String)
    (rs : List Paper) (title : String) (authors : List String) (year : Int) (p : Paper)
    (h : find_best_match inm nan rs title authors year = some p) :
    p ∈ rs ∧ match_score inm nan title authors year p =
      maxScore (match_score inm nan title authors year) rs := by
  unfold find_best_match at h
  by_cases hr : rs = []
  · simp [hr] at h
  · rcases hsel : selectBest (match_score inm nan title authors year) rs with ⟨bm, bs⟩
    rw [if_pos hr, hsel] at h
    dsimp only at h
    by_cases hth : localThreshold ≤ bs
    · rw [if_pos hth] at h
      exact selectBest_some (match_score inm nan title authors year) rs p
        (by rw [hsel]; exact h)
    · rw [if_neg hth] at h
      exact absurd h (by simp)

/-- C4: in the local checker's title search, a candidate's base score is
exactly 0.8 when either case-folded title is a substring of the other and
the common-word ratio otherwise; 0.2 is added for a normalized
first-author match and 0.1 for an exact year match, so a substring match
with both bonuses scores exactly 1.1; and `find_best_match` accepts a
candidate precisely when the best score reaches the 0.7 threshold, the
accepted candidate being one attaining the best score. -/
theorem c4_scoring_and_acceptance :
    (∀ (inm : String → String → Bool) (nan : String → String) (title : String)
        (authors : List String) (year : Int) (p : Paper),
        match_score inm nan title authors year p =
          spec_base_score title p.title
            + (if author_bonus inm nan authors p then 2 / 10 else 0)
            + (if year_bonus year p then 1 / 10 else 0)) ∧
    (∀ (inm : String → String → Bool) (nan : String → String) (title : String)
        (authors : List String) (year : Int) (p : Paper),
        (containsSub (pyLower title) (pyLower p.title) ||
            containsSub (pyLower p.title) (pyLower title)) = true →
        author_bonus inm nan authors p = true →
        year_bonus year p = true →
        match_score inm nan title authors year p = 11 / 10) ∧
    (∀ (inm : String → String → Bool) (nan : String → String) (rs : List Paper)
        (title : String) (authors : List String) (year : Int),
        (find_best_match inm nan rs title authors year).isSome = true ↔
          rs ≠ [] ∧ localThreshold ≤ maxScore (match_score inm nan title authors year) rs) ∧
    (∀ (inm : String → String → Bool) (nan : String → String) (rs : List Paper)
        (title : String) (authors : List String) (year : Int) (p : Paper),
        find_best_match inm nan rs title authors year = some p →
        p ∈ rs ∧ match_score inm nan title authors year p =
          maxScore (match_score inm nan title authors year) rs) := by
  refine ⟨match_score_eq, ?_, find_best_match_isSome, find_best_match_eq_some⟩
  intro inm nan title authors year p hsub ha hy
  rw [match_score_eq]
  unfold spec_base_score
  rw [if_pos hsub, if_pos ha, if_pos hy]
  norm_num

/-- First-author comparator used by concrete examples: literal equality. -/
def inmW : String → String → Bool := fun a b => a == b

/-- Name normalizer used by concrete examples: the identity. -/
def nanW : String → String := id

/-- A concrete candidate whose title contains the cited title and whose
first author and year match the citation. -/
def pW : Paper :=
  { title := "deep learning models", authors := [⟨"ann lee"⟩], year := some 2017 }

theorem c4_scoring_witness :
    match_score inmW nanW "deep learning" ["ann lee"] 2017 pW = 11 / 10 ∧
    (find_best_match inmW nanW [pW] "deep learning" ["ann lee"] 2017).isSome = true := by
  have hm : match_score inmW nanW "deep learning" ["ann lee"] 2017 pW = 11 / 10 :=
    c4_scoring_and_acceptance.2.1 inmW nanW "deep learning" ["ann lee"] 2017 pW
      (by decide) (by decide) (by decide)
  refine ⟨hm, (c4_scoring_and_acceptance.2.2.1 inmW nanW [pW]
      "deep learning" ["ann lee"] 2017).mpr ⟨by decide, ?_⟩⟩
  unfold maxScore
  simp only [List.foldl_cons, List.foldl_nil]
  rw [hm]
  norm_num [localThreshold]

/-! ## Lemmas about the ordering buffer -/

lemma flushLoop_spec :
    ∀ (n : ℕ) (buf : Finset ℕ) (next : ℕ), buf.card ≤ n →
      next ≤ (flushLoop buf next).2.1 ∧
      (∀ m, next ≤ m → m < (flushLoop buf next).2.1 → m ∈ buf) ∧
      (flushLoop buf next).2.1 ∉ buf ∧
      (flushLoop buf next).2.2 =
        List.range' next ((flushLoop buf next).2.1 - next) ∧
      (flushLoop buf next).1 =
        buf.filter (fun i => ¬(next ≤ i ∧ i < (flushLoop buf next).2.1)) := by
  intro n
  induction n with
  | zero =>
    intro buf next hcard
    have hb : buf = ∅ := Finset.card_eq_zero.mp (Nat.le_zero.mp hcard)
    subst hb
    rw [flushLoop]
    simp
  | succ n ih =>
    intro buf next hcard
    rw [flushLoop]
    by_cases h : next ∈ buf
    · simp only [h, dif_pos]
      have hcard2 : (buf.erase next).card ≤ n := by
        have := Finset.card_erase_lt_of_mem h
        omega
      obtain ⟨ih1, ih2, ih3, ih4, ih5⟩ := ih (buf.erase next) (next + 1) hcard2
      refine ⟨by omega, ?_, ?_, ?_, ?_⟩
      · intro m hm1 hm2
        by_cases hm : m = next
        · subst hm; exact h
        · exact Finset.mem_of_mem_erase (ih2 m (by omega) hm2)
      · intro hmem
        exact ih3 (Finset.mem_erase.mpr ⟨by omega, hmem⟩)
      · rw [ih4]
        have he : (flushLoop (buf.erase next) (next + 1)).2.1 - next =
            ((flushLoop (buf.erase next) (next + 1)).2.1 - (next + 1)) + 1 := by omega
        rw [he, List.range'_succ]
      · rw [ih5]
        have hlt : next < (flushLoop (buf.erase next) (next + 1)).2.1 := by omega
        ext i
        simp only [Finset.mem_filter, Finset.mem_erase]
        constructor
        · rintro ⟨⟨hne, hmem⟩, hnot⟩
          exact ⟨hmem, fun hc => hnot ⟨by omega, hc.2⟩⟩
        · rintro ⟨hmem, hnot⟩
          refine ⟨⟨?_, hmem⟩, ?_⟩
          · intro he; subst he; exact hnot ⟨le_refl _, hlt⟩
          · intro hc; exact hnot ⟨by omega, hc.2⟩
    · rw [dif_neg h]
      dsimp only
      refine ⟨le_refl _, ?_, h, ?_, ?_⟩
      · intro m h1 h2
        omega
      · simp
      · rw [Finset.filter_true_of_mem]
        intro i _
        omega

/-- The invariant tying the printer state after an arrival prefix to the
set `S` of indices that have arrived: everything below the cursor has
been emitted in order, the buffer holds exactly the arrived indices at or
above the cursor, every index below the cursor has arrived, and the
cursor's own index has not. -/
def PrinterInv (S : Finset ℕ) (st : PrinterState) : Prop :=
  st.emitted = List.range st.next ∧
  st.buf = S.filter (fun i => st.next ≤ i) ∧
  (∀ i, i < st.next → i ∈ S) ∧
  st.next ∉ S

lemma printerStep_inv (S : Finset ℕ) (st : PrinterState) (a : ℕ)
    (ha : a ∉ S) (hI : PrinterInv S st) : PrinterInv (insert a S) (printerStep st a) := by
  obtain ⟨hem, hbuf, hlo, hcur⟩ := hI
  have hacur : st.next ≤ a := by
    by_contra hlt
    exact ha (hlo a (by omega))
  have hins : insert a st.buf = (insert a S).filter (fun i => st.next ≤ i) := by
    rw [hbuf]
    ext i
    simp only [Finset.mem_insert, Finset.mem_filter]
    constructor
    · rintro (rfl | ⟨hi, hle⟩)
      · exact ⟨Or.inl rfl, hacur⟩
      · exact ⟨Or.inr hi, hle⟩
    · rintro ⟨rfl | hi, hle⟩
      · exact Or.inl rfl
      · exact Or.inr ⟨hi, hle⟩
  obtain ⟨f1, f2, f3, f4, f5⟩ :=
    flushLoop_spec (insert a st.buf).card (insert a st.buf) st.next (le_refl _)
  set r := flushLoop (insert a st.buf) st.next with hr
  refine ⟨?_, ?_, ?_, ?_⟩
  · show st.emitted ++ r.2.2 = List.range r.2.1
    rw [hem, f4, List.range_eq_range', List.range_eq_range']
    have := List.range'_append 0 st.next (r.2.1 - st.next) 1
    simp only [Nat.one_mul, Nat.zero_add] at this
    rw [this]
    congr 1
    omega
  · show r.1 = (insert a S).filter (fun i => r.2.1 ≤ i)
    rw [f5, hins, Finset.filter_filter]
    apply Finset.filter_congr
    intro i _
    omega
  · show ∀ i, i < r.2.1 → i ∈ insert a S
    intro i hi
    by_cases hlt : i < st.next
    · exact Finset.mem_insert_of_mem (hlo i hlt)
    · have h6 : i ∈ insert a st.buf := f2 i (by omega) hi
      rw [hins] at h6
      exact (Finset.mem_filter.mp h6).1
  · show r.2.1 ∉ insert a S
    intro hmem
    apply f3
    rw [hins]
    exact Finset.mem_filter.mpr ⟨hmem, f1⟩

lemma printer_fold_inv :
    ∀ (l : List ℕ) (S : Finset ℕ) (st : PrinterState),
      l.Nodup → (∀ a ∈ l, a ∉ S) → PrinterInv S st →
      PrinterInv (S ∪ l.toFinset) (l.foldl printerStep st) := by
  intro l
  induction l with
  | nil =>
    intro S st _ _ hI
    simpa using hI
  | cons a l ih =>
    intro S st hnd hdisj hI
    have h1 : PrinterInv (insert a S) (printerStep st a) :=
      printerStep_inv S st a (hdisj a (List.mem_cons_self a l)) hI
    have h2 := ih (insert a S) (printerStep st a) (List.Nodup.of_cons hnd)
      (fun b hb => by
        simp only [Finset.mem_insert, not_or]
        exact ⟨fun he => (List.nodup_cons.mp hnd).1 (he ▸ hb),
          hdisj b (List.mem_cons_of_mem a hb)⟩)
      h1
    have hset : insert a S ∪ l.toFinset = S ∪ (a :: l).toFinset := by
      rw [List.toFinset_cons]
      ext i
      simp only [Finset.mem_union, Finset.mem_insert]
      tauto
    rw [List.foldl_cons]
    rw [hset] at h2
    exact h2

lemma list_range_toFinset (n : ℕ) : (List.range n).toFinset = Finset.range n := by
  ext i
  simp [List.mem_range]

/-- C1: for a bibliography of size N, whatever order the worker results
reach the printer in — any permutation of the indices 0..N-1 — the
ordering buffer hands exactly N results to the callback, at the indices
0..N-1 in strictly increasing order with no gaps and no repeats
(`emitted = List.range N`), the cursor ends at N and the buffer drains
empty. -/
theorem c1_ordered_emission (N : ℕ) (arrivals : List ℕ)
    (hperm : arrivals.Perm (List.range N)) :
    (ordered_result_printer arrivals).emitted = List.range N ∧
    (ordered_result_printer arrivals).next = N ∧
    (ordered_result_printer arrivals).buf = ∅ := by
  have hnd : arrivals.Nodup := hperm.nodup_iff.mpr (List.nodup_range N)
  have hfin : arrivals.toFinset = Finset.range N := by
    rw [List.toFinset_eq_of_perm _ _ hperm, list_range_toFinset]
  have hinit : PrinterInv ∅ ⟨∅, 0, []⟩ :=
    ⟨rfl, by simp, fun i hi => absurd hi (Nat.not_lt_zero i), by simp⟩
  have hI := printer_fold_inv arrivals ∅ ⟨∅, 0, []⟩ hnd (by simp) hinit
  rw [Finset.empty_union, hfin] at hI
  unfold ordered_result_printer
  set F := List.foldl printerStep (⟨∅, 0, []⟩ : PrinterState) arrivals with hF
  obtain ⟨hem, hbuf, hlo, hcur⟩ := hI
  have h1 : N ≤ F.next := by
    by_contra hlt
    exact hcur (Finset.mem_range.mpr (by omega))
  have h2 : F.next ≤ N := by
    by_contra hgt
    have h3 := hlo N (by omega)
    rw [Finset.mem_range] at h3
    omega
  have hnextN : F.next = N := le_antisymm h2 h1
  refine ⟨by rw [hem, hnextN], hnextN, ?_⟩
  rw [hbuf, hnextN]
  ext i
  simp only [Finset.mem_filter, Finset.mem_range, Finset.not_mem_empty, iff_false, not_and]
  omega

theorem c1_ordered_emission_witness :
    (ordered_result_printer [2, 0, 1]).emitted = List.range 3 :=
  (c1_ordered_emission 3 [2, 0, 1] (by decide)).1

/-- C3: a worker converts a raised exception on one item into exactly one
result at that item's index carrying a single `processing_failed`
finding, every normally-verified item keeps its normal result at its
index, and for any division of the queued work items among workers the
emitted results cover exactly the indices 0..N-1 of the bibliography. -/
theorem c3_fault_containment :
    (∀ (w : WorkItem) (msg : String),
        processWorkItem w (.exn msg) =
          ⟨w.index, some [processingFailedFinding msg], none, none⟩) ∧
    (∀ (w : WorkItem) (errs : Option (List Finding)) (url : Option String)
        (vd : Option Paper),
        processWorkItem w (.ok errs url vd) = ⟨w.index, errs, url, vd⟩) ∧
    (∀ tasks : List (WorkItem × VerifyOutcome),
        (worker_loop tasks).length = tasks.length ∧
        (worker_loop tasks).map ReferenceResult.index =
          tasks.map (fun t => t.1.index)) ∧
    (∀ (bibliography : List Reference)
        (assignment : List (List (WorkItem × VerifyOutcome))),
        (assignment.flatten.map Prod.fst).Perm (mkWorkItems bibliography) →
        ((assignment.map worker_loop).flatten.map ReferenceResult.index).Perm
          (List.range bibliography.length)) := by
  have hidx : ∀ (t : WorkItem × VerifyOutcome),
      (processWorkItem t.1 t.2).index = t.1.index := by
    rintro ⟨w, o⟩
    cases o <;> rfl
  refine ⟨fun w msg => rfl, fun w errs url vd => rfl, ?_, ?_⟩
  · intro tasks
    refine ⟨by simp [worker_loop], ?_⟩
    unfold worker_loop
    rw [List.map_map]
    exact List.map_congr_left (fun t _ => hidx t)
  · intro bibliography assignment hperm
    have h1 : (assignment.map worker_loop).flatten =
        assignment.flatten.map (fun t => processWorkItem t.1 t.2) := by
      unfold worker_loop
      exact (List.map_flatten _ _).symm
    rw [h1, List.map_map]
    have h2 : (ReferenceResult.index ∘ fun t : WorkItem × VerifyOutcome =>
        processWorkItem t.1 t.2) = (WorkItem.index ∘ Prod.fst) := by
      funext t
      exact hidx t
    rw [h2, ← List.map_map]
    have h3 := hperm.map WorkItem.index
    have h4 : (mkWorkItems bibliography).map WorkItem.index =
        List.range bibliography.length := by
      unfold mkWorkItems
      rw [List.map_map]
      have : (WorkItem.index ∘ fun pr : ℕ × Reference => WorkItem.mk pr.1 pr.2) =
          Prod.fst := by
        funext pr
        rfl
      rw [this, List.enum_map_fst]
    rw [h4] at h3
    exact h3

theorem c3_fault_containment_witness :
    ((([[(⟨1, {}⟩, VerifyOutcome.exn "boom")],
        [(⟨0, {}⟩, VerifyOutcome.ok none none none)]].map worker_loop).flatten.map
          ReferenceResult.index).Perm (List.range 2)) ∧
    processWorkItem ⟨1, {}⟩ (.exn "boom") =
      ⟨1, some [processingFailedFinding "boom"], none, none⟩ :=
  ⟨c3_fault_containment.2.2.2 [{}, {}]
      [[(⟨1, {}⟩, VerifyOutcome.exn "boom")], [(⟨0, {}⟩, VerifyOutcome.ok none none none)]]
      (by decide),
    c3_fault_containment.1 ⟨1, {}⟩ "boom"⟩

/-! ## Lemmas about the fallback chain -/

lemma step2_of_found (env : Env) (cl : Client) (ref : Reference) (c : Chain)
    (h : c.paper ≠ none) : step2 env cl ref c = c := by
  unfold step2
  rw [if_neg (fun hc => h hc.1)]

lemma step3_of_found (cl : Client) (ref : Reference) (c : Chain)
    (h : c.paper ≠ none) : step3 cl ref c = c := by
  unfold step3
  rw [if_neg (fun hc => h hc.1)]

lemma step4_of_found (env : Env) (cl : Client) (ref : Reference) (c : Chain)
    (h : c.paper ≠ none) : step4 env cl ref c = c := by
  unfold step4
  rw [if_neg (fun hc => h hc.1)]

lemma verify_reference_of_found (env : Env) (cl : Client) (ref : Reference) (p : Paper)
    (hcrash : (resolveChain env cl ref).crashed = false)
    (hp : (resolveChain env cl ref).paper = some p) :
    verify_reference env cl ref =
      .ok (some p, crossValidate env ref (resolveChain env cl ref) p) := by
  unfold verify_reference
  dsimp only
  rw [hcrash, hp]
  simp

/-! ## Field ownership of the cross-validation findings -/

/-- The findings of a verdict that concern one field. -/
def fieldOf (fld : String) (l : List Finding) : List Finding :=
  l.filter (fun f => f.field == fld)

lemma mem_titleFindings_field (env : Env) (ref : Reference) (c : Chain) (p : Paper)
    (f : Finding) (hf : f ∈ titleFindings env ref c p) : f.field = "title" := by
  unfold titleFindings at hf
  repeat' split at hf
  all_goals first
    | rw [List.mem_singleton.mp hf]
    | simp at hf

lemma mem_authorFindings_field (env : Env) (ref : Reference) (p : Paper)
    (f : Finding) (hf : f ∈ authorFindings env ref p) : f.field = "author" := by
  unfold authorFindings at hf
  repeat' split at hf
  all_goals first
    | rw [List.mem_singleton.mp hf]
    | simp at hf

lemma mem_yearFindings_field (ref : Reference) (p : Paper)
    (f : Finding) (hf : f ∈ yearFindings ref p) : f.field = "year" := by
  unfold yearFindings at hf
  repeat' split at hf
  all_goals first
    | rw [List.mem_singleton.mp hf]
    | simp at hf

lemma mem_venueFindings_field (env : Env) (ref : Reference) (p : Paper)
    (f : Finding) (hf : f ∈ venueFindings env ref p) : f.field = "venue" := by
  unfold venueFindings at hf
  dsimp only at hf
  repeat' split at hf
  all_goals first
    | rw [List.mem_singleton.mp hf]
    | simp at hf

lemma mem_doiFindings_field (ref : Reference) (p : Paper)
    (f : Finding) (hf : f ∈ doiFindings ref p) : f.field = "doi" := by
  unfold doiFindings at hf
  dsimp only at hf
  repeat' split at hf
  all_goals first
    | rw [List.mem_singleton.mp hf]
    | simp at hf

lemma fieldOf_nil_of_all (l : List Finding) (s t : String)
    (h : ∀ f ∈ l, f.field = s) (hne : (s == t) = false) :
    fieldOf t l = [] := by
  unfold fieldOf
  rw [List.filter_eq_nil_iff]
  intro f hf
  rw [h f hf]
  simp [hne]

/-! ## Concrete instances for examples and counterexamples

`envX` instantiates the external utilities with simple total functions so
that concrete runs of the pipeline reduce: similarity is exact equality
(1 or 0), the configured threshold is 1, cleaning is the identity, and
the shared scorer proposes the first search result with score 1. -/

/-- A concrete environment of external utilities. -/
def envX : Env :=
  { threshold := 1
    cleanTitleForSearch := id
    normalizeText := id
    calcTitleSimilarity := fun a b => if a = b then 1 else 0
    compareAuthors := fun a pa => (a == pa.map Author.name, "author mismatch")
    venuesDiff := fun a b => a != b
    findBestMatch := fun ps _ _ _ => (ps.head?, 1)
    normalizeDoi := id }

/-- A paper reachable by DOI lookup. -/
def pX : Paper := { title := "A Paper" }

/-- A citation that carries a DOI. -/
def refX : Reference := { doi := "10.1234/abc" }

/-- A client whose DOI lookup succeeds. -/
def clX : Client :=
  { getPaperByDoi := fun _ => .found pX
    searchPaper := fun _ _ => .results []
    arxivApi := fun _ => none }

/-- C5: a citation that supplies a resolvable DOI and whose identifier
lookup succeeds short-circuits the chain: the only client call is the
DOI lookup — no title search, no arXiv-ID search, no raw-text search and
no arXiv API fallback is invoked — and the looked-up paper is the
accepted candidate. -/
theorem c5_identifier_short_circuit (env : Env) (cl : Client) (ref : Reference)
    (d : String) (p : Paper)
    (hd : refDoi ref = some d) (hp : cl.getPaperByDoi d = .found p) :
    (resolveChain env cl ref).trace = [CallTag.doiCall d] ∧
    (resolveChain env cl ref).paper = some p ∧
    (∀ q y, CallTag.searchCall q y ∉ (resolveChain env cl ref).trace) ∧
    (∀ a, CallTag.arxivApiCall a ∉ (resolveChain env cl ref).trace) := by
  have h1 : step1 cl ref = { paper := some p, trace := [.doiCall d] } := by
    unfold step1
    rw [hd]
    dsimp only
    rw [hp]
  have hres : resolveChain env cl ref = { paper := some p, trace := [.doiCall d] } := by
    unfold resolveChain
    rw [h1, step2_of_found _ _ _ _ (by simp), step3_of_found _ _ _ (by simp),
      step4_of_found _ _ _ _ (by simp)]
  rw [hres]
  refine ⟨rfl, rfl, ?_, ?_⟩ <;> simp

theorem c5_identifier_short_circuit_witness :
    (resolveChain envX clX refX).trace = [CallTag.doiCall "10.1234/abc"] ∧
    (resolveChain envX clX refX).paper = some pX :=
  ⟨(c5_identifier_short_circuit envX clX refX "10.1234/abc" pX rfl rfl).1,
    (c5_identifier_short_circuit envX clX refX "10.1234/abc" pX rfl rfl).2.1⟩

/-! ## Concrete instances for the not-found / api-failure / crash cases -/

/-- A client whose every search exhausts its five retries transiently;
its search outcome is literally the retry loop run on all-transient
attempts. -/
def clTransient : Client :=
  { getPaperByDoi := fun _ => .transient
    searchPaper := fun _ _ => search_paper_run (fun _ => .transientErr)
    arxivApi := fun _ => none }

/-- A citation with only a title. -/
def refTitled : Reference := { title := "Some Paper" }

/-- A client that answers every lookup with a definite not-found. -/
def clNotFound : Client :=
  { getPaperByDoi := fun _ => .notFound
    searchPaper := fun _ _ => .results []
    arxivApi := fun _ => none }

/-- A citation exercising all four strategies: a DOI, a title, an arXiv
url and raw text. -/
def refAllMiss : Reference :=
  { title := "Some Paper", doi := "10.1/z",
    url := "https://arxiv.org/abs/1234.5678", rawText := "raw" }

/-- A client whose raw-text search returns a candidate. -/
def clC2 : Client :=
  { getPaperByDoi := fun _ => .notFound
    searchPaper := fun _ _ => .results [pX]
    arxivApi := fun _ => none }

/-- A citation with an empty title but nonempty raw text: the raw-text
strategy then reads the never-assigned `cleaned_title` local. -/
def refC2 : Reference := { doi := "10.1000/y", rawText := "x" }

/-- C2: five consecutive transient attempts exhaust the retry loop into
the transient outcome; a verification in which a search exhausted its
retries and no strategy found a paper returns no paper with exactly the
single `api_failure` finding; one in which every miss was a definite
not-found returns no paper, no findings and no URL; but on a citation
whose title is empty and whose raw-text search returns candidates,
`verify_reference` raises `UnboundLocalError` (the `cleaned_title` local
is only assigned inside the title-search branch) instead of returning
the not-found verdict. -/
theorem c2_retry_exhaustion_and_not_found :
    search_paper_run (fun _ => .transientErr) = .transient ∧
    verify_reference envX clTransient refTitled =
      .ok (none, [apiFailureFinding], none) ∧
    verify_reference envX clNotFound refAllMiss = .ok (none, [], none) ∧
    verify_reference envX clC2 refC2 = .error () :=
  ⟨rfl, rfl, rfl, rfl⟩

lemma fieldOf_append (fld : String) (a b : List Finding) :
    fieldOf fld (a ++ b) = fieldOf fld a ++ fieldOf fld b := by
  simp [fieldOf]

/-! ## C6: the title check -/

/-- A candidate whose title differs entirely from the citation. -/
def pC6 : Paper := { title := "Completely Different Title" }

/-- A citation resolved by DOI whose cited title matches nothing. -/
def refC6 : Reference := { title := "The Cited Title", doi := "10.5/x" }

/-- A client resolving the DOI to `pC6`. -/
def clC6 : Client :=
  { getPaperByDoi := fun _ => .found pC6
    searchPaper := fun _ _ => .results []
    arxivApi := fun _ => none }

/-- C6, counterexample to the claim as stated: a candidate accepted by
the DOI strategy whose title similarity to the citation is below the
threshold still yields an empty finding list — no `title` error — because
the title check only runs when a search strategy recorded a
`found_title`, and the DOI strategy never does. -/
theorem c6_title_check_counterexample :
    verify_reference envX clC6 refC6 = .ok (some pC6, [], none) ∧
    envX.calcTitleSimilarity refC6.title pC6.title < envX.threshold := by
  refine ⟨rfl, ?_⟩
  show (if refC6.title = pC6.title then (1 : ℚ) else 0) < 1
  rw [if_neg (by decide)]
  norm_num

/-- C6, amended: for a candidate accepted by a search strategy (title,
arXiv-ID or raw-text search — i.e. when a nonempty found title was
recorded; candidates accepted by direct DOI lookup are not
title-checked), the cited title is compared to the found title by the
normalized similarity, and the verdict carries exactly one `title` error
with the candidate's correct title precisely when the similarity is
below the threshold. -/
theorem c6_title_check_amended (env : Env) (cl : Client) (ref : Reference) (p : Paper)
    (_hp : (resolveChain env cl ref).paper = some p)
    (hft : (resolveChain env cl ref).foundTitle ≠ "") :
    fieldOf "title" (crossValidate env ref (resolveChain env cl ref) p).1 =
      if env.calcTitleSimilarity ref.title (resolveChain env cl ref).foundTitle <
          env.threshold then
        [⟨.error, "title",
          .titleMismatch ref.title (resolveChain env cl ref).foundTitle, some p.title⟩]
      else [] := by
  have hcv : (crossValidate env ref (resolveChain env cl ref) p).1 =
      titleFindings env ref (resolveChain env cl ref) p ++ authorFindings env ref p ++
        yearFindings ref p ++ venueFindings env ref p ++ doiFindings ref p := rfl
  rw [hcv, fieldOf_append, fieldOf_append, fieldOf_append, fieldOf_append,
    fieldOf_nil_of_all _ "author" "title" (mem_authorFindings_field env ref p) (by decide),
    fieldOf_nil_of_all _ "year" "title" (mem_yearFindings_field ref p) (by decide),
    fieldOf_nil_of_all _ "venue" "title" (mem_venueFindings_field env ref p) (by decide),
    fieldOf_nil_of_all _ "doi" "title" (mem_doiFindings_field ref p) (by decide)]
  simp only [List.append_nil]
  unfold titleFindings
  by_cases hsim : env.calcTitleSimilarity ref.title (resolveChain env cl ref).foundTitle <
      env.threshold
  · rw [if_pos ⟨hft, hsim⟩, if_pos hsim]
    simp [fieldOf]
  · rw [if_neg (fun hc => hsim hc.2), if_neg hsim]
    rfl

/-- A candidate found by title search whose title differs from the
citation's. -/
def pC6b : Paper := { title := "Completely Different Title" }

/-- A citation whose title search returns `pC6b`. -/
def refC6b : Reference := { title := "The Cited Title" }

/-- A client whose title search returns `pC6b`. -/
def clC6b : Client :=
  { getPaperByDoi := fun _ => .notFound
    searchPaper := fun _ _ => .results [pC6b]
    arxivApi := fun _ => none }

theorem c6_title_check_amended_witness :
    fieldOf "title" (crossValidate envX refC6b (resolveChain envX clC6b refC6b) pC6b).1 =
      [⟨.error, "title", .titleMismatch "The Cited Title" "Completely Different Title",
        some "Completely Different Title"⟩] := by
  have h := c6_title_check_amended envX clC6b refC6b pC6b rfl (by decide)
  have hsim : envX.calcTitleSimilarity refC6b.title
      (resolveChain envX clC6b refC6b).foundTitle < envX.threshold := by
    show (if refC6b.title = (resolveChain envX clC6b refC6b).foundTitle
        then (1 : ℚ) else 0) < 1
    rw [if_neg (by decide)]
    norm_num
  rw [h, if_pos hsim]
  rfl

/-! ## C7: the year check -/

/-- A candidate with year 2018 and an arXiv id. -/
def pC7 : Paper :=
  { title := "Attention", year := some 2018, externalIds := { arxiv := "1706.03762" } }

/-- A citation with year 2017 whose url carries the same arXiv id. -/
def refC7 : Reference :=
  { title := "Attention", year := 2017, url := "https://arxiv.org/abs/1706.03762" }

/-- A client whose title search returns `pC7`. -/
def clC7 : Client :=
  { getPaperByDoi := fun _ => .notFound
    searchPaper := fun _ _ => .results [pC7]
    arxivApi := fun _ => none }

/-- C7: when both the cited and the candidate year are present (truthy)
and differ, the verdict carries exactly one `year` finding, of kind
warning, with the candidate's correct year and the ArXiv context note
exactly when the url's arXiv id equals the candidate's; the 2017-vs-2018
exact-identifier example yields exactly that one warning and zero
findings of kind error. -/
theorem c7_year_mismatch_warning :
    (∀ (env : Env) (cl : Client) (ref : Reference) (p : Paper) (py : Int),
        (resolveChain env cl ref).paper = some p →
        p.year = some py → ref.year ≠ 0 → py ≠ 0 → ref.year ≠ py →
        fieldOf "year" (crossValidate env ref (resolveChain env cl ref) p).1 =
          [⟨.warning, "year", .yearMismatch ref.year py (arxivIdMatchOf ref.url p),
            some (toString py)⟩]) ∧
    verify_reference envX clC7 refC7 =
      .ok (some pC7,
        [⟨.warning, "year", .yearMismatch 2017 2018 true, some (toString (2018 : Int))⟩],
        some "https://arxiv.org/abs/1706.03762") ∧
    ([(⟨.warning, "year", .yearMismatch 2017 2018 true,
        some (toString (2018 : Int))⟩ : Finding)].filter
          (fun f => f.kind == FKind.error)).length = 0 := by
  refine ⟨?_, rfl, rfl⟩
  intro env cl ref p py hp hpy h1 h2 h3
  have hcv : (crossValidate env ref (resolveChain env cl ref) p).1 =
      titleFindings env ref (resolveChain env cl ref) p ++ authorFindings env ref p ++
        yearFindings ref p ++ venueFindings env ref p ++ doiFindings ref p := rfl
  rw [hcv, fieldOf_append, fieldOf_append, fieldOf_append, fieldOf_append,
    fieldOf_nil_of_all _ "title" "year"
      (mem_titleFindings_field env ref (resolveChain env cl ref) p) (by decide),
    fieldOf_nil_of_all _ "author" "year" (mem_authorFindings_field env ref p) (by decide),
    fieldOf_nil_of_all _ "venue" "year" (mem_venueFindings_field env ref p) (by decide),
    fieldOf_nil_of_all _ "doi" "year" (mem_doiFindings_field ref p) (by decide)]
  simp only [List.nil_append, List.append_nil]
  unfold yearFindings
  rw [hpy]
  dsimp only
  rw [if_pos ⟨h1, h2, h3⟩]
  simp [fieldOf]

theorem c7_year_mismatch_warning_witness :
    fieldOf "year" (crossValidate envX refC7 (resolveChain envX clC7 refC7) pC7).1 =
      [⟨.warning, "year", .yearMismatch 2017 2018 (arxivIdMatchOf refC7.url pC7),
        some (toString (2018 : Int))⟩] :=
  c7_year_mismatch_warning.1 envX clC7 refC7 pC7 2018 rfl rfl (by decide) (by decide)
    (by decide)

/-! ## C8: the author check -/

/-- A candidate with an arXiv id and author "Ann Lee". -/
def pC8 : Paper :=
  { title := "T", authors := [⟨"Ann Lee"⟩], externalIds := { arxiv := "2101.00001" } }

/-- A citation with a mismatching author list whose url carries the
candidate's arXiv id. -/
def refC8 : Reference :=
  { title := "T", authors := ["X"], url := "https://arxiv.org/abs/2101.00001" }

/-- A client whose title search returns `pC8`. -/
def clC8 : Client :=
  { getPaperByDoi := fun _ => .notFound
    searchPaper := fun _ _ => .results [pC8]
    arxivApi := fun _ => none }

/-- Like `pC8` without an arXiv id. -/
def pC8b : Paper := { title := "T", authors := [⟨"Ann Lee"⟩] }

/-- Like `refC8` without a url. -/
def refC8b : Reference := { title := "T", authors := ["X"] }

/-- A client whose title search returns `pC8b`. -/
def clC8b : Client :=
  { getPaperByDoi := fun _ => .notFound
    searchPaper := fun _ _ => .results [pC8b]
    arxivApi := fun _ => none }

/-- C8: when the delegated author comparison fails on an accepted
candidate, the verdict carries exactly one `author` finding with the
correct author list; its kind is `error`, downgraded to `warning` (with
the context note) exactly when the arXiv id extracted from the
citation's url equals the candidate's; the two closed runs exhibit the
downgraded and the plain-error outcome. -/
theorem c8_author_mismatch_severity :
    (∀ (env : Env) (cl : Client) (ref : Reference) (p : Paper) (msg : String),
        (resolveChain env cl ref).paper = some p →
        ref.authors ≠ [] →
        env.compareAuthors ref.authors p.authors = (false, msg) →
        fieldOf "author" (crossValidate env ref (resolveChain env cl ref) p).1 =
          [⟨if arxivIdMatchOf ref.url p then FKind.warning else FKind.error,
            "author", .authorMismatch msg (arxivIdMatchOf ref.url p),
            some (joinAuthorNames p.authors)⟩]) ∧
    verify_reference envX clC8 refC8 =
      .ok (some pC8,
        [⟨.warning, "author", .authorMismatch "author mismatch" true, some "Ann Lee"⟩],
        some "https://arxiv.org/abs/2101.00001") ∧
    verify_reference envX clC8b refC8b =
      .ok (some pC8b,
        [⟨.error, "author", .authorMismatch "author mismatch" false, some "Ann Lee"⟩],
        none) := by
  refine ⟨?_, rfl, rfl⟩
  intro env cl ref p msg _hp hauth hcmp
  have hcv : (crossValidate env ref (resolveChain env cl ref) p).1 =
      titleFindings env ref (resolveChain env cl ref) p ++ authorFindings env ref p ++
        yearFindings ref p ++ venueFindings env ref p ++ doiFindings ref p := rfl
  rw [hcv, fieldOf_append, fieldOf_append, fieldOf_append, fieldOf_append,
    fieldOf_nil_of_all _ "title" "author"
      (mem_titleFindings_field env ref (resolveChain env cl ref) p) (by decide),
    fieldOf_nil_of_all _ "year" "author" (mem_yearFindings_field ref p) (by decide),
    fieldOf_nil_of_all _ "venue" "author" (mem_venueFindings_field env ref p) (by decide),
    fieldOf_nil_of_all _ "doi" "author" (mem_doiFindings_field ref p) (by decide)]
  simp only [List.nil_append, List.append_nil]
  unfold authorFindings
  rw [if_pos hauth, hcmp]
  dsimp only
  by_cases hax : arxivIdMatchOf ref.url p = true
  · rw [if_pos hax, if_pos hax, hax]
    simp [fieldOf]
  · rw [if_neg hax, if_neg hax]
    rw [Bool.not_eq_true] at hax
    rw [hax]
    simp [fieldOf]

theorem c8_author_mismatch_severity_witness :
    fieldOf "author" (crossValidate envX refC8 (resolveChain envX clC8 refC8) pC8).1 =
      [⟨if arxivIdMatchOf refC8.url pC8 then FKind.warning else FKind.error,
        "author", .authorMismatch "author mismatch" (arxivIdMatchOf refC8.url pC8),
        some (joinAuthorNames pC8.authors)⟩] :=
  c8_author_mismatch_severity.1 envX clC8 refC8 pC8 "author mismatch" rfl (by decide) rfl

/-! ## C9: verdict URL selection -/

/-- The URL priority exactly as the claim words it: an arXiv abstract URL
built from the candidate's arXiv identifier, else the open-access PDF
URL, else the candidate's general URL field, else a DOI resolver URL
built from its DOI, else no URL. -/
def spec_url_priority (normalizeDoi : String → String) (p : Paper) : Option String :=
  if p.externalIds.arxiv ≠ "" then
    some ("https://arxiv.org/abs/" ++ p.externalIds.arxiv)
  else if p.openAccessPdf ≠ "" then some p.openAccessPdf
  else if p.url ≠ "" then some p.url
  else if p.externalIds.doi ≠ "" then
    some (construct_doi_url normalizeDoi p.externalIds.doi)
  else none

/-- C9: the URL component of the verdict for any accepted candidate is
exactly the claim's fixed priority chain `spec_url_priority`. -/
theorem c9_verdict_url_priority :
    (∀ (env : Env) (ref : Reference) (c : Chain) (p : Paper),
        (crossValidate env ref c p).2 = spec_url_priority env.normalizeDoi p) ∧
    (∀ (env : Env) (cl : Client) (ref : Reference) (p : Paper)
        (errs : List Finding) (u : Option String),
        verify_reference env cl ref = .ok (some p, errs, u) →
        u = spec_url_priority env.normalizeDoi p) := by
  have h1 : ∀ (env : Env) (ref : Reference) (c : Chain) (p : Paper),
      (crossValidate env ref c p).2 = spec_url_priority env.normalizeDoi p := by
    intro env ref c p
    rfl
  refine ⟨h1, ?_⟩
  intro env cl ref p errs u h
  unfold verify_reference at h
  dsimp only at h
  by_cases hc : (resolveChain env cl ref).crashed = true
  · rw [if_pos hc] at h
    exact absurd h (by simp)
  · rw [if_neg hc] at h
    rcases hp : (resolveChain env cl ref).paper with _ | q
    · rw [hp] at h
      dsimp only at h
      simp at h
    · rw [hp] at h
      dsimp only at h
      rw [Except.ok.injEq, Prod.mk.injEq] at h
      obtain ⟨hq, hcv⟩ := h
      have hu : u = (crossValidate env ref (resolveChain env cl ref) q).2 := by
        rw [hcv]
      rw [hu, h1, Option.some_inj.mp hq]

theorem c9_verdict_url_priority_witness :
    some "https://arxiv.org/abs/1706.03762" = spec_url_priority envX.normalizeDoi pC7 :=
  c9_verdict_url_priority.2 envX clC7 refC7 pC7
    [⟨.warning, "year", .yearMismatch 2017 2018 true, some (toString (2018 : Int))⟩]
    (some "https://arxiv.org/abs/1706.03762") rfl

/-! ## C10: the statistics total -/

lemma count_kinds (l : List Finding) :
    (l.filter (fun f => f.kind == FKind.error)).length +
      (l.filter (fun f => f.kind == FKind.warning)).length = l.length := by
  induction l with
  | nil => rfl
  | cons f l ih =>
    cases hf : f.kind <;> simp [List.filter_cons, hf] <;> omega

/-- C10: the `total_errors` statistic accumulates, for every processed
result, the full length of its finding list — the number of findings of
kind error plus the number of findings of kind warning — so warnings are
counted, not only errors; a result whose only finding is a year warning
contributes 1. -/
theorem c10_total_errors_all_kinds :
    (∀ (rs : List (ReferenceResult × ℚ)) (s : ProcessingStats),
        (rs.foldl (fun acc rt => update_stats acc rt.1 rt.2) s).totalErrors =
          s.totalErrors + (rs.map (fun rt =>
            ((rt.1.errors.getD []).filter (fun f => f.kind == FKind.error)).length +
              ((rt.1.errors.getD []).filter
                (fun f => f.kind == FKind.warning)).length)).sum) ∧
    (update_stats {}
        ⟨0, some [⟨.warning, "year", .yearMismatch 2017 2018 true,
          some (toString (2018 : Int))⟩], none, none⟩ 1).totalErrors = 1 := by
  refine ⟨?_, rfl⟩
  intro rs
  induction rs with
  | nil => intro s; simp
  | cons rt rs ih =>
    intro s
    rw [List.foldl_cons, ih, List.map_cons, List.sum_cons]
    unfold update_stats
    dsimp only
    rw [count_kinds]
    omega
